import Mathlib

/-!
Shallow embedding of `scripts/run_inference.py` (RFdiffusion inference driver).

Tensors are modelled with lists: a sequence tensor is a list of per-residue
category-score rows (`List Int` per residue), a confidence (plddt) tensor is a
list of its leading-dimension slices, and structure tensors are kept abstract
(a type parameter `X`), since the orchestration loop only moves them around.
Randomness is modelled by threading an explicit generator state `G`;
`make_deterministic(seed)` becomes replacement of that state by `seedGen seed`.
Filesystem effects are modelled by a list of existing paths plus an event
trace recording sampler calls and artifact writes.
-/

namespace RunInference

/-- Timesteps visited by `for t in range(a, b - 1, -1)` (line 142 of
`run_inference.py`): `a, a-1, ..., b` when `b ≤ a`, empty otherwise. -/
def rangeDown (a b : Int) : List Int :=
  (List.range (a - b + 1).toNat).map (fun (i : Nat) => a - (i : Int))

/-- Indices visited by `range(a, a + n)` (line 120): `a, a+1, ..., a+n-1`. -/
def rangeUp (a n : Int) : List Int :=
  (List.range n.toNat).map (fun (k : Nat) => a + (k : Int))

/-- A sequence tensor: per-residue rows of category scores
(`torch.argmax(seq_init, dim=-1)` reduces each row to a category index). -/
abbrev Seq : Type := List (List Int)

/-- Index of the first maximal element, scanning with a running best.
Models `torch.argmax` over one row (ties resolved to the first occurrence). -/
def argmaxFrom (i bestIdx : Nat) (bestVal : Int) : List Int → Nat
  | [] => bestIdx
  | x :: xs =>
      if bestVal < x then argmaxFrom (i + 1) i x xs
      else argmaxFrom (i + 1) bestIdx bestVal xs

/-- Models `torch.argmax` on a single score row (0 on an empty row). -/
def argmax : List Int → Nat
  | [] => 0
  | x :: xs => argmaxFrom 1 0 x xs

/-- Models `torch.argmax(seq, dim=-1)`: one category index per residue. -/
def seqArgmax (s : Seq) : List Nat :=
  s.map argmax

/-- Lines 175-177: `torch.where(torch.argmax(seq_init, dim=-1) == 21, 7,
torch.argmax(seq_init, dim=-1))` — glycine (7) at diffused (21) positions. -/
def finalSeqOf (seq_init : Seq) : List Nat :=
  (seqArgmax seq_init).map (fun c => if c = 21 then 7 else c)

/-- Line 179: `torch.ones_like(final_seq.squeeze())`. -/
def onesLike (l : List Nat) : List Int :=
  l.map (fun _ => (1 : Int))

/-- Indexed assignment `b[mask] = 0` on a vector, as in line 181. -/
def setZeroWhere (b : List Int) (mask : List Bool) : List Int :=
  (b.zip mask).map (fun pm => if pm.2 then 0 else pm.1)

/-- Lines 179-181: per-residue b-factor vector, 0 at diffused positions. -/
def bfactsOf (seq_init : Seq) : List Int :=
  setZeroWhere (onesLike (finalSeqOf seq_init))
    ((seqArgmax seq_init).map (fun c => c == 21))

/-- Models `torch.flip(stack, [0])` on a stacked list of frames. -/
def flip0 {α : Type} (l : List α) : List α :=
  l.reverse

/-- Decimal digits of a natural number, as characters. -/
def natDigits (n : Nat) : List Char :=
  (Nat.toDigits 10 n)

/-- Left-pads a character list with zeros up to width `w`. -/
def padZeros (w : Nat) (s : List Char) : List Char :=
  List.replicate (w - s.length) '0' ++ s

/-- Models the Python format `f"_{i:05d}"` fragment: zero-padded to width 5,
the sign included in the width. -/
def pad5 (i : Int) : String :=
  if i < 0 then ⟨'-' :: padZeros 4 (natDigits i.natAbs)⟩
  else ⟨padZeros 5 (natDigits i.toNat)⟩

/-- Models `os.path.dirname`: everything before the last `/` (empty if none). -/
def dirname (s : String) : String :=
  ⟨(((s.data.reverse).dropWhile (fun c => c ≠ '/')).drop 1).reverse⟩

/-- Models `os.path.basename`: everything after the last `/`. -/
def basename (s : String) : String :=
  ⟨((s.data.reverse).takeWhile (fun c => c ≠ '/')).reverse⟩

/-- True when the character list ends with `.pdb`. -/
def endsWithPdb (cs : List Char) : Bool :=
  decide (4 ≤ cs.length) && cs.drop (cs.length - 4) == ['.', 'p', 'd', 'b']

/-- Numeric value of a decimal digit string, as `int()` parses it. -/
def digitsToNat (ds : List Char) : Nat :=
  ds.foldl (fun a c => 10 * a + (c.toNat - 48)) 0

/-- Models `re.match(r".*_(\d+)\.pdb$", p)` followed by `int` on the capture
(lines 112-117): with the greedy leading `.*`, the capture is the maximal
digit run immediately before the `.pdb` suffix, and it must be preceded by
an underscore.  Returns `none` when the pattern does not match. -/
def extractIndex (p : String) : Option Nat :=
  let cs := p.data
  if endsWithPdb cs then
    let stemRev := (cs.take (cs.length - 4)).reverse
    let digits := stemRev.takeWhile Char.isDigit
    match digits, stemRev.dropWhile Char.isDigit with
    | [], _ => none
    | _, [] => none
    | ds, c :: _ => if c = '_' then some (digitsToNat ds.reverse) else none
  else none

/-- Models `glob.glob(out_stem + "*.pdb")` membership for one path: the path
starts with the stem, ends with `.pdb`, and the part matched by `*` contains
no `/` (glob's `*` does not cross directory separators). -/
def globPdb (stem p : String) : Bool :=
  let sc := stem.data
  let pc := p.data
  sc.isPrefixOf pc && endsWithPdb pc && decide (sc.length + 4 ≤ pc.length) &&
    ((pc.drop sc.length).take (pc.length - sc.length - 4)).all (fun c => c ≠ '/')

/-- Lines 109-117: the `indices` list, seeded with `-1`, extended with every
matching trailing suffix among the globbed artifacts. -/
def scanIndices (stem : String) (fs : List String) : List Int :=
  (fs.filter (fun p => globPdb stem p)).foldl
    (fun acc p =>
      match extractIndex p with
      | none => acc
      | some n => acc ++ [(n : Int)])
    [(-1 : Int)]

/-- Python `max` on a nonempty list (`[]` is unreachable at the call site:
`scanIndices` always starts with `-1`). -/
def pyListMax : List Int → Int
  | [] => 0
  | x :: xs => xs.foldl max x

/-- Lines 106-118: resolve `design_startnum`, scanning existing artifacts
when the `-1` sentinel requests auto-resume. -/
def resolveStartnum (startnum : Int) (stem : String) (fs : List String) : Int :=
  if startnum = -1 then pyListMax (scanIndices stem fs) + 1
  else startnum

/-- The sampler capability (`iu.sampler_selector(conf)`), as `main` consumes
it: `sample_init` and `sample_step` are deterministic functions of their
arguments and of the threaded generator state `G`; a raising `sample_step`
is an `Except.error`.  The raw confidence tensor is returned as the list of
its leading-dimension slices, so `plddt[0]` is its head. -/
structure Sampler (X C G E : Type) where
  t_step_input : Int
  sample_init : G → X × Seq × G
  sample_step : Int → X → Seq → Int → G → Except E (X × X × Seq × List C × G)

/-- Per-design loop state: current tensors, the four accumulators of lines
134-137, and the generator state. -/
structure LoopState (X C G : Type) where
  x_t : X
  seq_t : Seq
  px0_stack : List X
  denoised_stack : List X
  seq_stack : List Seq
  plddt_stack : List C
  g : G
deriving DecidableEq, Repr

/-- Ways a design can abort: a raising `sample_step`, `plddt[0]` on an empty
tensor (line 149), or `torch.stack` / `seq_stack[-1]` on empty accumulators
(lines 152, 172). -/
inductive RunError (E : Type) where
  | samplerError (e : E)
  | indexError
  | emptyStackError
deriving DecidableEq, Repr

/-- Observable actions of one run: sampler invocations and artifact writes.
Directory creation (`os.makedirs`) is elided; the claims concern artifacts. -/
inductive Event (X C : Type) where
  | sampleInitCall
  | sampleStepCall (t : Int)
  | writePdb (path : String) (coords : X) (seq : List Nat) (bfacts : List Int)
  | writeTrb (path : String) (plddt : List C)
  | writeTrajXt (path : String) (frames : List X) (bfacts : List Int) (seq : List Nat)
  | writeTrajPx0 (path : String) (frames : List X) (bfacts : List Int) (seq : List Nat)
deriving DecidableEq, Repr

/-- True exactly on artifact-writing events. -/
def Event.isWrite {X C : Type} : Event X C → Bool
  | .writePdb _ _ _ _ => true
  | .writeTrb _ _ => true
  | .writeTrajXt _ _ _ _ => true
  | .writeTrajPx0 _ _ _ _ => true
  | _ => false

/-- One iteration of the loop body, lines 143-149: call `sample_step`,
then append `px0`, `x_t`, `seq_t` and `plddt[0]` to the accumulators. -/
def loopStep {X C G E : Type} (sp : Sampler X C G E) (final_step : Int)
    (st : LoopState X C G) (t : Int) :
    Except (RunError E) (LoopState X C G) :=
  match sp.sample_step t st.x_t st.seq_t final_step st.g with
  | .error e => .error (.samplerError e)
  | .ok (px0, x_t, seq_t, plddt, g) =>
    match plddt with
    | [] => .error .indexError
    | p0 :: _ =>
      .ok { x_t := x_t, seq_t := seq_t,
            px0_stack := st.px0_stack ++ [px0],
            denoised_stack := st.denoised_stack ++ [x_t],
            seq_stack := st.seq_stack ++ [seq_t],
            plddt_stack := st.plddt_stack ++ [p0],
            g := g }

/-- The reverse-diffusion loop of lines 142-149 over a list of timesteps,
recording one `sampleStepCall` event per `sample_step` invocation and
stopping at the first raised exception. -/
def runLoop {X C G E : Type} (sp : Sampler X C G E) (final_step : Int) :
    List Int → LoopState X C G →
    List (Event X C) × Except (RunError E) (LoopState X C G)
  | [], st => ([], .ok st)
  | t :: ts, st =>
    match loopStep sp final_step st t with
    | .error e => ([.sampleStepCall t], .error e)
    | .ok st1 =>
      let r := runLoop sp final_step ts st1
      (.sampleStepCall t :: r.1, r.2)

/-- Lines 133-140: clone the initial tensors and start with empty stacks. -/
def initState {X C G : Type} (x_init : X) (seq_init : Seq) (g : G) :
    LoopState X C G :=
  { x_t := x_init, seq_t := seq_init, px0_stack := [], denoised_stack := [],
    seq_stack := [], plddt_stack := [], g := g }

/-- The configuration fields `main` reads (`output_stem` stands for the
output path stem called `output_` + `prefix` in the source). -/
structure InfConf where
  design_startnum : Int
  num_designs : Int
  output_stem : String
  cautious : Bool
  deterministic : Bool
  seed : Int
  final_step : Int
  write_trajectory : Bool

/-- Ambient model parameters: `seedGen s` is the generator state produced by
`make_deterministic(s)` (lines 37-41), and `sliceAtoms` is the coordinate
slicing `[:, :4]` applied at the `writepdb` call site (line 188). -/
structure Ctx (X G : Type) where
  seedGen : Int → G
  sliceAtoms : X → X

/-- Lines 121-122: the generator state in force when design `i_des` starts —
re-seeded with `seed + i_des` when determinism is enabled, the inherited
state otherwise. -/
def seededG {X G : Type} (ctx : Ctx X G) (conf : InfConf) (i_des : Int)
    (g : G) : G :=
  if conf.deterministic then ctx.seedGen (conf.seed + i_des) else g

/-- Line 125: the per-design output path stem `f"..._{i_des:05d}"`. -/
def outStem (conf : InfConf) (i_des : Int) : String :=
  conf.output_stem ++ "_" ++ pad5 i_des

/-- One iteration of the design loop, lines 120-237: re-seed when
deterministic, skip when cautious and the primary artifact exists, otherwise
run the diffusion loop, flip the structure stacks, and write the artifacts.
Returns the event trace, the updated set of existing paths, and either the
final generator state or the propagated error. -/
def runDesign {X C G E : Type} (ctx : Ctx X G) (sp : Sampler X C G E)
    (conf : InfConf) (i_des : Int) (g : G) (fs : List String) :
    List (Event X C) × List String × Except (RunError E) G :=
  let g1 := seededG ctx conf i_des g
  let out_stem := outStem conf i_des
  if conf.cautious && fs.contains (out_stem ++ ".pdb") then
    ([], fs, .ok g1)
  else
    let r0 := sp.sample_init g1
    let seq_init := r0.2.1
    let lr := runLoop sp conf.final_step
      (rangeDown sp.t_step_input conf.final_step) (initState r0.1 seq_init r0.2.2)
    match lr.2 with
    | .error e => (.sampleInitCall :: lr.1, fs, .error e)
    | .ok st =>
      match flip0 st.denoised_stack with
      | [] => (.sampleInitCall :: lr.1, fs, .error .emptyStackError)
      | d0 :: drest =>
        -- line 172: `final_seq = seq_stack[-1]` is dead, overwritten by 175-177
        let final_seq := finalSeqOf seq_init
        let bfacts := bfactsOf seq_init
        let out := out_stem ++ ".pdb"
        let trb := out_stem ++ ".trb"
        let evs := [Event.writePdb out (ctx.sliceAtoms d0) final_seq bfacts,
                    Event.writeTrb trb st.plddt_stack]
        if conf.write_trajectory then
          let traj_stem := dirname out_stem ++ "/traj/" ++ basename out_stem
          let o1 := traj_stem ++ "_Xt-1_traj.pdb"
          let o2 := traj_stem ++ "_pX0_traj.pdb"
          (.sampleInitCall :: lr.1 ++ evs ++
             [Event.writeTrajXt o1 (d0 :: drest) bfacts final_seq,
              Event.writeTrajPx0 o2 (flip0 st.px0_stack) bfacts final_seq],
           fs ++ [out, trb, o1, o2], .ok st.g)
        else
          (.sampleInitCall :: lr.1 ++ evs, fs ++ [out, trb], .ok st.g)

/-- The design loop of line 120 over a list of design indices, threading the
generator state and the set of existing paths, aborting on the first error. -/
def runDesigns {X C G E : Type} (ctx : Ctx X G) (sp : Sampler X C G E)
    (conf : InfConf) : List Int → G → List String →
    List (Event X C) × List String × Except (RunError E) G
  | [], g, fs => ([], fs, .ok g)
  | i :: is, g, fs =>
    let r := runDesign ctx sp conf i g fs
    match r.2.2 with
    | .error e => (r.1, r.2.1, .error e)
    | .ok g1 =>
      let rest := runDesigns ctx sp conf is g1 r.2.1
      (r.1 ++ rest.1, rest.2.1, rest.2.2)

/-- The body of `main` (lines 84-237): optional global seeding, startnum
resolution, then the batch over `range(startnum, startnum + num_designs)`. -/
def runMain {X C G E : Type} (ctx : Ctx X G) (sp : Sampler X C G E)
    (conf : InfConf) (g : G) (fs : List String) :
    List (Event X C) × List String × Except (RunError E) G :=
  let g1 := if conf.deterministic then ctx.seedGen conf.seed else g
  let startnum := resolveStartnum conf.design_startnum conf.output_stem fs
  runDesigns ctx sp conf (rangeUp startnum conf.num_designs) g1 fs

/-- Matching artifacts with their extracted suffixes, stated as the spec
reads: globbed files whose trailing-numeric-suffix pattern matches. -/
def matchingIndices (stem : String) (fs : List String) : List Nat :=
  (fs.filter (fun p => globPdb stem p)).filterMap extractIndex

/-- Configuration with global determinism enabled. -/
def toyConfDet : InfConf :=
  { design_startnum := 0, num_designs := 1, output_stem := "out/d",
    cautious := false, deterministic := true, seed := 11, final_step := 0,
    write_trajectory := false }

/-- Configuration with the cautious (skip-if-exists) policy enabled. -/
def toyConfCautious : InfConf :=
  { design_startnum := 0, num_designs := 2, output_stem := "out/d",
    cautious := true, deterministic := false, seed := 0, final_step := 0,
    write_trajectory := false }

/-- Configuration running a single timestep per design, no trajectory. -/
def toyConfOneStep : InfConf :=
  { design_startnum := 0, num_designs := 3, output_stem := "out/d",
    cautious := false, deterministic := false, seed := 0, final_step := 1,
    write_trajectory := false }

/-- Configuration whose `final_step` exceeds the sampler's initial timestep,
so the reverse-diffusion loop body never runs. -/
def toyConfEmpty : InfConf :=
  { design_startnum := 0, num_designs := 1, output_stem := "out/d",
    cautious := false, deterministic := false, seed := 0, final_step := 2,
    write_trajectory := false }

/-- A 22-category score row whose argmax is the reserved diffused
category 21. -/
def rowDiffused : List Int := List.replicate 21 0 ++ [5]

/-- A score row whose argmax is the ordinary category 2. -/
def rowMotif : List Int := [0, 0, 9]

/-- A two-residue initial sequence: one diffused position, one motif
position. -/
def seqToy : Seq := [rowDiffused, rowMotif]

/-- Concrete model parameters over `X = G = Nat` for closed evaluations. -/
def toyCtx : Ctx Nat Nat :=
  { seedGen := fun s => s.natAbs, sliceAtoms := fun x => x }

/-- Concrete sampler over `X = C = G = Nat`, `E = Unit`: the generator
counts `sample_step` calls and the step raises once the count reaches
`failAt`. -/
def toySampler (tsi : Int) (failAt : Nat) : Sampler Nat Nat Nat Unit :=
  { t_step_input := tsi
    sample_init := fun g => (g, seqToy, g)
    sample_step := fun _ x _ _ g =>
      if failAt ≤ g then .error ()
      else .ok (x + 1, x + 2, seqToy, [g + 100], g + 1) }

/-- Concrete configuration for closed evaluations. -/
def toyConf : InfConf :=
  { design_startnum := 0, num_designs := 1, output_stem := "out/d",
    cautious := false, deterministic := false, seed := 0, final_step := 0,
    write_trajectory := true }

example : rangeDown 5 2 = [5, 4, 3, 2] := by decide
example : rangeDown 0 2 = [] := by decide
example : pad5 3 = "00003" := by decide
example : pad5 (-3) = "-0003" := by decide
example : extractIndex "out/foo_00007.pdb" = some 7 := by decide
example : extractIndex "out/foo_12_34.pdb" = some 34 := by decide
example : extractIndex "out/foo_3x4.pdb" = none := by decide
example : extractIndex "out/foo.pdb" = none := by decide
example : resolveStartnum (-1) "out/foo"
    ["out/foo_00000.pdb", "out/foo_00003.pdb", "out/foo_00007.pdb", "out/foo_junk.txt"]
    = 8 := by decide
example : resolveStartnum (-1) "out/foo" [] = 0 := by decide
example : dirname "a/b/c" = "a/b" := by decide
example : basename "a/b/c" = "c" := by decide

lemma getD_map {α β : Type} (f : α → β) (l : List α) (p : Nat) (d : α)
    (d2 : β) (h : p < l.length) : (l.map f).getD p d2 = f (l.getD p d) := by
  induction l generalizing p with
  | nil => simp at h
  | cons x xs ih =>
    cases p with
    | zero => simp [List.getD]
    | succ q => simpa [List.getD] using ih q (by simpa using h)

lemma length_rangeDown (a b : Int) :
    (rangeDown a b).length = (a - b + 1).toNat := by
  simp [rangeDown]

lemma getD_rangeDown (a b : Int) (i : Nat) (h : i < (rangeDown a b).length) :
    (rangeDown a b).getD i 0 = a - (i : Int) := by
  have h2 : i < (List.range (a - b + 1).toNat).length := by
    simpa [rangeDown] using h
  rw [rangeDown, getD_map _ _ i 0 0 h2]
  have h3 : (List.range (a - b + 1).toNat).getD i 0 = i := by
    rw [List.getD_eq_getElem?_getD, List.getElem?_eq_getElem h2]
    simp
  rw [h3]

lemma getD_flip0 {α : Type} (l : List α) (d : α) (i : Nat) (h : i < l.length) :
    (flip0 l).getD i d = l.getD (l.length - 1 - i) d := by
  have h2 : i < l.reverse.length := by simpa using h
  have h3 : l.length - 1 - i < l.length := by omega
  rw [flip0, List.getD_eq_getElem?_getD, List.getD_eq_getElem?_getD,
    List.getElem?_eq_getElem h2, List.getElem?_eq_getElem h3]
  simp [List.getElem_reverse]

lemma le_foldl_max (l : List Int) (a : Int) : a ≤ l.foldl max a := by
  induction l generalizing a with
  | nil => simp
  | cons x xs ih => exact le_trans (le_max_left a x) (ih (max a x))

lemma mem_le_foldl_max (l : List Int) (a x : Int) (hx : x ∈ l) :
    x ≤ l.foldl max a := by
  induction l generalizing a with
  | nil => cases hx
  | cons y ys ih =>
    rcases List.mem_cons.1 hx with h | h
    · subst h
      exact le_trans (le_max_right a x) (le_foldl_max ys (max a x))
    · exact ih (max a y) h

lemma foldl_max_mem (l : List Int) (a : Int) :
    l.foldl max a = a ∨ l.foldl max a ∈ l := by
  induction l generalizing a with
  | nil => exact Or.inl rfl
  | cons x xs ih =>
    rcases ih (max a x) with h | h
    · rcases max_choice a x with hm | hm
      · exact Or.inl (by simpa [hm] using h)
      · exact Or.inr (List.mem_cons.2 (Or.inl (by simpa [hm] using h)))
    · exact Or.inr (List.mem_cons.2 (Or.inr (by simpa using h)))

lemma foldl_collect_eq (fs : List String) (acc : List Int) :
    fs.foldl
      (fun acc p =>
        match extractIndex p with
        | none => acc
        | some n => acc ++ [(n : Int)]) acc
    = acc ++ (fs.filterMap extractIndex).map (fun (n : Nat) => (n : Int)) := by
  induction fs generalizing acc with
  | nil => simp
  | cons p ps ih =>
    cases hp : extractIndex p with
    | none => simp [hp, ih]
    | some n => simp [hp, ih]

lemma scanIndices_eq (stem : String) (fs : List String) :
    scanIndices stem fs
      = (-1 : Int) :: (matchingIndices stem fs).map (fun (n : Nat) => (n : Int)) := by
  rw [scanIndices, foldl_collect_eq, matchingIndices]
  rfl

lemma runLoop_events_shape {X C G E : Type} (sp : Sampler X C G E) (f : Int)
    (ts : List Int) (st : LoopState X C G) :
    ∀ e ∈ (runLoop sp f ts st).1, ∃ t, e = Event.sampleStepCall t := by
  induction ts generalizing st with
  | nil => intro e he; simp [runLoop] at he
  | cons t ts ih =>
    intro e he
    simp only [runLoop] at he
    cases hs : loopStep sp f st t with
    | error err =>
      rw [hs] at he
      simp at he
      exact ⟨t, he⟩
    | ok st1 =>
      rw [hs] at he
      simp at he
      rcases he with h | h
      · exact ⟨t, h⟩
      · exact ih st1 e h

lemma runLoop_ok_events {X C G E : Type} (sp : Sampler X C G E) (f : Int)
    (ts : List Int) (st st1 : LoopState X C G)
    (hok : (runLoop sp f ts st).2 = .ok st1) :
    (runLoop sp f ts st).1 = ts.map Event.sampleStepCall := by
  induction ts generalizing st with
  | nil => simp [runLoop]
  | cons t ts ih =>
    cases hs : loopStep sp f st t with
    | error err =>
      simp only [runLoop, hs] at hok
      exact Except.noConfusion hok
    | ok st2 =>
      simp only [runLoop, hs] at hok ⊢
      simpa using ih st2 hok

lemma loopStep_ok_stacks {X C G E : Type} (sp : Sampler X C G E) (f t : Int)
    (st st2 : LoopState X C G) (hs : loopStep sp f st t = .ok st2) :
    st2.denoised_stack.length = st.denoised_stack.length + 1 ∧
    st2.px0_stack.length = st.px0_stack.length + 1 ∧
    st2.seq_stack.length = st.seq_stack.length + 1 ∧
    st2.plddt_stack.length = st.plddt_stack.length + 1 := by
  rw [loopStep] at hs
  split at hs
  · exact Except.noConfusion hs
  · split at hs
    · exact Except.noConfusion hs
    · cases hs
      simp

lemma runLoop_ok_stacks {X C G E : Type} (sp : Sampler X C G E) (f : Int)
    (ts : List Int) (st st1 : LoopState X C G)
    (hok : (runLoop sp f ts st).2 = .ok st1) :
    st1.denoised_stack.length = st.denoised_stack.length + ts.length ∧
    st1.px0_stack.length = st.px0_stack.length + ts.length ∧
    st1.seq_stack.length = st.seq_stack.length + ts.length ∧
    st1.plddt_stack.length = st.plddt_stack.length + ts.length := by
  induction ts generalizing st with
  | nil =>
    simp only [runLoop] at hok
    cases hok
    simp
  | cons t ts ih =>
    cases hs : loopStep sp f st t with
    | error err =>
      simp only [runLoop, hs] at hok
      exact Except.noConfusion hok
    | ok st2 =>
      simp only [runLoop, hs] at hok
      obtain ⟨a1, a2, a3, a4⟩ := loopStep_ok_stacks sp f t st st2 hs
      obtain ⟨b1, b2, b3, b4⟩ := ih st2 hok
      simp only [List.length_cons]
      omega

lemma loopStep_plddt_entry {X C G E : Type} (sp : Sampler X C G E)
    (f t : Int) (st : LoopState X C G) (px0 x : X) (s : Seq) (p0 : C)
    (ps : List C) (g2 : G)
    (hs : sp.sample_step t st.x_t st.seq_t f st.g = .ok (px0, x, s, p0 :: ps, g2)) :
    ∃ st2, loopStep sp f st t = .ok st2 ∧
      st2.plddt_stack = st.plddt_stack ++ [p0] := by
  refine
    ⟨{ x_t := x, seq_t := s,
       px0_stack := st.px0_stack ++ [px0],
       denoised_stack := st.denoised_stack ++ [x],
       seq_stack := st.seq_stack ++ [s],
       plddt_stack := st.plddt_stack ++ [p0], g := g2 }, ?_, rfl⟩
  simp only [loopStep, hs]

lemma not_stepCall_mem_runLoop {X C G E : Type} (sp : Sampler X C G E)
    (f : Int) (ts : List Int) (st : LoopState X C G) (e : Event X C)
    (he : e ∈ (runLoop sp f ts st).1) (hne : ∀ t, e ≠ Event.sampleStepCall t) :
    False := by
  rcases runLoop_events_shape sp f ts st e he with ⟨t, ht⟩
  exact hne t ht

lemma runDesign_writePdb_mem {X C G E : Type} (ctx : Ctx X G)
    (sp : Sampler X C G E) (conf : InfConf) (i : Int) (g : G)
    (fs : List String) (out : String) (coords : X) (sq : List Nat)
    (bf : List Int)
    (hmem : Event.writePdb out coords sq bf ∈ (runDesign ctx sp conf i g fs).1) :
    out = outStem conf i ++ ".pdb" ∧
    sq = finalSeqOf (sp.sample_init (seededG ctx conf i g)).2.1 ∧
    bf = bfactsOf (sp.sample_init (seededG ctx conf i g)).2.1 := by
  simp only [runDesign] at hmem
  split at hmem
  · simp at hmem
  · split at hmem
    · simp at hmem
      exact absurd hmem
        (fun h => not_stepCall_mem_runLoop _ _ _ _ _ h (fun t ht => by cases ht))
    · split at hmem
      · simp at hmem
        exact absurd hmem
          (fun h => not_stepCall_mem_runLoop _ _ _ _ _ h (fun t ht => by cases ht))
      · split at hmem <;>
        · simp at hmem
          rcases hmem with h | h
          · exact absurd h
              (fun h =>
                not_stepCall_mem_runLoop _ _ _ _ _ h (fun t ht => by cases ht))
          · obtain ⟨h1, h2, h3, h4⟩ := h
            exact ⟨h1, h3, h4⟩

lemma runDesign_writeTrb_mem {X C G E : Type} (ctx : Ctx X G)
    (sp : Sampler X C G E) (conf : InfConf) (i : Int) (g : G)
    (fs : List String) (path : String) (pl : List C)
    (hmem : Event.writeTrb path pl ∈ (runDesign ctx sp conf i g fs).1) :
    ∃ st1,
      (runLoop sp conf.final_step (rangeDown sp.t_step_input conf.final_step)
          (initState (sp.sample_init (seededG ctx conf i g)).1
            (sp.sample_init (seededG ctx conf i g)).2.1
            (sp.sample_init (seededG ctx conf i g)).2.2)).2 = .ok st1 ∧
      path = outStem conf i ++ ".trb" ∧ pl = st1.plddt_stack := by
  simp only [runDesign] at hmem
  split at hmem
  · simp at hmem
  · split at hmem
    · simp at hmem
      exact absurd hmem
        (fun h => not_stepCall_mem_runLoop _ _ _ _ _ h (fun t ht => by cases ht))
    · rename_i st hst
      split at hmem
      · simp at hmem
        exact absurd hmem
          (fun h => not_stepCall_mem_runLoop _ _ _ _ _ h (fun t ht => by cases ht))
      · split at hmem <;>
        · simp at hmem
          rcases hmem with h | h
          · exact absurd h
              (fun h =>
                not_stepCall_mem_runLoop _ _ _ _ _ h (fun t ht => by cases ht))
          · obtain ⟨h1, h2⟩ := h
            exact ⟨st, hst, h1, h2⟩

lemma runDesign_writeTrajXt_mem {X C G E : Type} (ctx : Ctx X G)
    (sp : Sampler X C G E) (conf : InfConf) (i : Int) (g : G)
    (fs : List String) (o : String) (fr : List X) (bf : List Int)
    (sq : List Nat)
    (hmem : Event.writeTrajXt o fr bf sq ∈ (runDesign ctx sp conf i g fs).1) :
    ∃ st1,
      (runLoop sp conf.final_step (rangeDown sp.t_step_input conf.final_step)
          (initState (sp.sample_init (seededG ctx conf i g)).1
            (sp.sample_init (seededG ctx conf i g)).2.1
            (sp.sample_init (seededG ctx conf i g)).2.2)).2 = .ok st1 ∧
      fr = flip0 st1.denoised_stack := by
  simp only [runDesign] at hmem
  split at hmem
  · simp at hmem
  · split at hmem
    · simp at hmem
      exact absurd hmem
        (fun h => not_stepCall_mem_runLoop _ _ _ _ _ h (fun t ht => by cases ht))
    · rename_i st hst
      split at hmem
      · simp at hmem
        exact absurd hmem
          (fun h => not_stepCall_mem_runLoop _ _ _ _ _ h (fun t ht => by cases ht))
      · rename_i d0 drest hflip
        split at hmem
        · simp at hmem
          rcases hmem with h | h
          · exact absurd h
              (fun h =>
                not_stepCall_mem_runLoop _ _ _ _ _ h (fun t ht => by cases ht))
          · obtain ⟨h1, h2⟩ := h
            exact ⟨st, hst, h2.1.trans hflip.symm⟩
        · simp at hmem
          exact absurd hmem
            (fun h =>
              not_stepCall_mem_runLoop _ _ _ _ _ h (fun t ht => by cases ht))

lemma runDesign_writeTrajPx0_mem {X C G E : Type} (ctx : Ctx X G)
    (sp : Sampler X C G E) (conf : InfConf) (i : Int) (g : G)
    (fs : List String) (o : String) (fr : List X) (bf : List Int)
    (sq : List Nat)
    (hmem : Event.writeTrajPx0 o fr bf sq ∈ (runDesign ctx sp conf i g fs).1) :
    ∃ st1,
      (runLoop sp conf.final_step (rangeDown sp.t_step_input conf.final_step)
          (initState (sp.sample_init (seededG ctx conf i g)).1
            (sp.sample_init (seededG ctx conf i g)).2.1
            (sp.sample_init (seededG ctx conf i g)).2.2)).2 = .ok st1 ∧
      fr = flip0 st1.px0_stack := by
  simp only [runDesign] at hmem
  split at hmem
  · simp at hmem
  · split at hmem
    · simp at hmem
      exact absurd hmem
        (fun h => not_stepCall_mem_runLoop _ _ _ _ _ h (fun t ht => by cases ht))
    · rename_i st hst
      split at hmem
      · simp at hmem
        exact absurd hmem
          (fun h => not_stepCall_mem_runLoop _ _ _ _ _ h (fun t ht => by cases ht))
      · split at hmem
        · simp at hmem
          rcases hmem with h | h
          · exact absurd h
              (fun h =>
                not_stepCall_mem_runLoop _ _ _ _ _ h (fun t ht => by cases ht))
          · obtain ⟨h1, h2⟩ := h
            exact ⟨st, hst, h2.1⟩
        · simp at hmem
          exact absurd hmem
            (fun h =>
              not_stepCall_mem_runLoop _ _ _ _ _ h (fun t ht => by cases ht))

lemma runDesign_error_frame {X C G E : Type} (ctx : Ctx X G)
    (sp : Sampler X C G E) (conf : InfConf) (i : Int) (g : G)
    (fs fs2 : List String) (ev : List (Event X C)) (err : RunError E)
    (h : runDesign ctx sp conf i g fs = (ev, fs2, .error err)) :
    fs2 = fs ∧ ∀ w ∈ ev, w.isWrite = false := by
  simp only [runDesign] at h
  split at h
  · injection h with h1 h23
    injection h23 with h2 h3
    exact Except.noConfusion h3
  · split at h
    · injection h with h1 h23
      injection h23 with h2 h3
      refine ⟨h2.symm, ?_⟩
      intro w hw
      rw [← h1] at hw
      simp only [List.mem_cons] at hw
      rcases hw with hw | hw
      · subst hw; rfl
      · rcases runLoop_events_shape _ _ _ _ _ hw with ⟨t, ht⟩
        subst ht; rfl
    · split at h
      · injection h with h1 h23
        injection h23 with h2 h3
        refine ⟨h2.symm, ?_⟩
        intro w hw
        rw [← h1] at hw
        simp only [List.mem_cons] at hw
        rcases hw with hw | hw
        · subst hw; rfl
        · rcases runLoop_events_shape _ _ _ _ _ hw with ⟨t, ht⟩
          subst ht; rfl
      · split at h <;>
        · injection h with h1 h23
          injection h23 with h2 h3
          exact Except.noConfusion h3

lemma runDesigns_append {X C G E : Type} (ctx : Ctx X G)
    (sp : Sampler X C G E) (conf : InfConf) (is1 is2 : List Int) (g g1 : G)
    (fs fs1 : List String) (ev : List (Event X C))
    (h : runDesigns ctx sp conf is1 g fs = (ev, fs1, .ok g1)) :
    runDesigns ctx sp conf (is1 ++ is2) g fs =
      (ev ++ (runDesigns ctx sp conf is2 g1 fs1).1,
       (runDesigns ctx sp conf is2 g1 fs1).2.1,
       (runDesigns ctx sp conf is2 g1 fs1).2.2) := by
  induction is1 generalizing g fs ev with
  | nil =>
    simp only [runDesigns] at h
    injection h with h1 h23
    injection h23 with h2 h3
    injection h3 with h3
    subst h1 h2 h3
    simp
  | cons i is ih =>
    cases hr : (runDesign ctx sp conf i g fs).2.2 with
    | error e =>
      simp only [runDesigns, hr] at h
      injection h with h1 h23
      injection h23 with h2 h3
      exact Except.noConfusion h3
    | ok g2 =>
      simp only [List.cons_append, runDesigns, hr]
      simp only [runDesigns, hr] at h
      injection h with h1 h23
      injection h23 with h2 h3
      have hrec :
          runDesigns ctx sp conf is g2 (runDesign ctx sp conf i g fs).2.1 =
            ((runDesigns ctx sp conf is g2 (runDesign ctx sp conf i g fs).2.1).1,
             fs1, .ok g1) := by
        rw [← h2, ← h3]
      simp only [List.append_eq]
      rw [ih g2 (runDesign ctx sp conf i g fs).2.1 _ hrec]
      rw [← h1]
      simp

lemma setZero_onesLike_eq (l : List Nat) :
    setZeroWhere (onesLike (l.map (fun c => if c = 21 then 7 else c)))
        (l.map (fun c => c == 21))
      = l.map (fun c => if c = 21 then (0 : Int) else 1) := by
  induction l with
  | nil => rfl
  | cons c cs ih =>
    simp only [List.map_cons, onesLike, setZeroWhere, List.zip_cons_cons] at ih ⊢
    by_cases hc : c = 21 <;>
      · simp only [List.map_map] at ih ⊢
        simp [hc, ih]

lemma bfactsOf_eq (s : Seq) :
    bfactsOf s = (seqArgmax s).map (fun c => if c = 21 then (0 : Int) else 1) := by
  rw [bfactsOf, finalSeqOf]
  exact setZero_onesLike_eq (seqArgmax s)

lemma getD_finalSeqOf (s : Seq) (p : Nat) (h : p < (finalSeqOf s).length) :
    (finalSeqOf s).getD p 0
      = if (seqArgmax s).getD p 0 = 21 then 7 else (seqArgmax s).getD p 0 := by
  have h2 : p < (seqArgmax s).length := by simpa [finalSeqOf] using h
  rw [finalSeqOf, getD_map _ _ p 0 0 h2]

lemma getD_bfactsOf (s : Seq) (p : Nat) (h : p < (bfactsOf s).length) :
    (bfactsOf s).getD p 0
      = if (seqArgmax s).getD p 0 = 21 then 0 else 1 := by
  have h2 : p < (seqArgmax s).length := by
    simpa [bfactsOf_eq] using h
  rw [bfactsOf_eq, getD_map _ _ p 0 0 h2]

/-- C1: when `t_final ≤ t_initial`, a completed reverse-diffusion loop makes
exactly `t_initial - t_final + 1` `sample_step` calls, the `i`-th with
timestep argument `t_initial - i`: strictly decreasing by 1 from `t_initial`
down to `t_final` inclusive. -/
theorem loop_timestep_schedule {X C G E : Type} (sp : Sampler X C G E)
    (f : Int) (st st1 : LoopState X C G) (ev : List (Event X C)) (a b : Int)
    (h : b ≤ a)
    (hrun : runLoop sp f (rangeDown a b) st = (ev, .ok st1)) :
    ev.length = (a - b + 1).toNat ∧
    ∀ i, i < ev.length →
      ev.getD i .sampleInitCall = Event.sampleStepCall (a - (i : Int)) := by
  have hfst : (runLoop sp f (rangeDown a b) st).1 = ev := by rw [hrun]
  have hev : ev = (rangeDown a b).map Event.sampleStepCall :=
    hfst.symm.trans (runLoop_ok_events sp f (rangeDown a b) st st1 (by rw [hrun]))
  subst hev
  constructor
  · rw [List.length_map, length_rangeDown]
  · intro i hi
    have hi2 : i < (rangeDown a b).length := by simpa using hi
    rw [getD_map _ _ i 0 _ hi2, getD_rangeDown a b i hi2]

/-- C1 witness: a three-step schedule from `t = 2` down to `t = 0`. -/
theorem loop_timestep_schedule_witness :
    ([Event.sampleStepCall 2, .sampleStepCall 1, .sampleStepCall 0]
        : List (Event Nat Nat)).length = ((2 : Int) - 0 + 1).toNat ∧
    ∀ i, i < ([Event.sampleStepCall 2, .sampleStepCall 1, .sampleStepCall 0]
        : List (Event Nat Nat)).length →
      ([Event.sampleStepCall 2, .sampleStepCall 1, .sampleStepCall 0]
          : List (Event Nat Nat)).getD i .sampleInitCall
        = Event.sampleStepCall (2 - (i : Int)) :=
  loop_timestep_schedule (toySampler 2 99) 0 (initState 0 seqToy 0)
    { x_t := 6, seq_t := seqToy, px0_stack := [1, 3, 5],
      denoised_stack := [2, 4, 6], seq_stack := [seqToy, seqToy, seqToy],
      plddt_stack := [100, 101, 102], g := 3 }
    [.sampleStepCall 2, .sampleStepCall 1, .sampleStepCall 0] 2 0
    (by decide) rfl

/-- C2: the sequence written to the structure artifact is determined by the
initial sequence alone, whatever the sampler produced: glycine (7) at every
position whose initial argmax is the diffused category 21, and the initial
argmax category at every other position. -/
theorem final_seq_glycine_masked {X C G E : Type} (ctx : Ctx X G)
    (sp : Sampler X C G E) (conf : InfConf) (i : Int) (g : G)
    (fs : List String) (out : String) (coords : X) (sq : List Nat)
    (bf : List Int)
    (hmem : Event.writePdb out coords sq bf ∈ (runDesign ctx sp conf i g fs).1) :
    sq = finalSeqOf (sp.sample_init (seededG ctx conf i g)).2.1 ∧
    ∀ p, p < sq.length →
      sq.getD p 0 =
        if (seqArgmax (sp.sample_init (seededG ctx conf i g)).2.1).getD p 0 = 21
        then 7
        else (seqArgmax (sp.sample_init (seededG ctx conf i g)).2.1).getD p 0 := by
  obtain ⟨-, h2, -⟩ := runDesign_writePdb_mem ctx sp conf i g fs out coords sq bf hmem
  subst h2
  exact ⟨rfl, fun p hp => getD_finalSeqOf _ p hp⟩

/-- C2 witness: a concrete run with one diffused and one motif residue. -/
theorem final_seq_glycine_masked_witness :
    [7, 2] = finalSeqOf ((toySampler 2 99).sample_init
        (seededG toyCtx toyConf 0 0)).2.1 ∧
    ∀ p, p < [7, 2].length →
      [7, 2].getD p 0 =
        if (seqArgmax ((toySampler 2 99).sample_init
            (seededG toyCtx toyConf 0 0)).2.1).getD p 0 = 21
        then 7
        else (seqArgmax ((toySampler 2 99).sample_init
            (seededG toyCtx toyConf 0 0)).2.1).getD p 0 :=
  final_seq_glycine_masked toyCtx (toySampler 2 99) toyConf 0 0 []
    "out/d_00000.pdb" 6 [7, 2] [0, 1] (by decide)

/-- C7: the per-residue b-factor vector written with the final structure is 0
exactly at positions whose initial argmax is the diffused category 21, and 1
everywhere else. -/
theorem bfacts_mask_diffused {X C G E : Type} (ctx : Ctx X G)
    (sp : Sampler X C G E) (conf : InfConf) (i : Int) (g : G)
    (fs : List String) (out : String) (coords : X) (sq : List Nat)
    (bf : List Int)
    (hmem : Event.writePdb out coords sq bf ∈ (runDesign ctx sp conf i g fs).1) :
    bf = bfactsOf (sp.sample_init (seededG ctx conf i g)).2.1 ∧
    ∀ p, p < bf.length →
      bf.getD p 0 =
        if (seqArgmax (sp.sample_init (seededG ctx conf i g)).2.1).getD p 0 = 21
        then 0 else 1 := by
  obtain ⟨-, -, h3⟩ := runDesign_writePdb_mem ctx sp conf i g fs out coords sq bf hmem
  subst h3
  exact ⟨rfl, fun p hp => getD_bfactsOf _ p hp⟩

/-- C7 witness: the same concrete run, mask `[0, 1]`. -/
theorem bfacts_mask_diffused_witness :
    [0, 1] = bfactsOf ((toySampler 2 99).sample_init
        (seededG toyCtx toyConf 0 0)).2.1 ∧
    ∀ p, p < [(0 : Int), 1].length →
      [(0 : Int), 1].getD p 0 =
        if (seqArgmax ((toySampler 2 99).sample_init
            (seededG toyCtx toyConf 0 0)).2.1).getD p 0 = 21
        then 0 else 1 :=
  bfacts_mask_diffused toyCtx (toySampler 2 99) toyConf 0 0 []
    "out/d_00000.pdb" 6 [7, 2] [0, 1] (by decide)

/-- C3: the two trajectory stacks written after the loop are the reversals
of their generation-order accumulators: frame `j` equals accumulator entry
`N - 1 - j`. -/
theorem trajectory_stacks_reversed {X C G E : Type} (ctx : Ctx X G)
    (sp : Sampler X C G E) (conf : InfConf) (i : Int) (g : G)
    (fs : List String) (o1 o2 : String) (frx frp : List X)
    (bf1 bf2 : List Int) (sq1 sq2 : List Nat) (d : X)
    (hx : Event.writeTrajXt o1 frx bf1 sq1 ∈ (runDesign ctx sp conf i g fs).1)
    (hp : Event.writeTrajPx0 o2 frp bf2 sq2 ∈ (runDesign ctx sp conf i g fs).1) :
    ∃ st1,
      (runLoop sp conf.final_step (rangeDown sp.t_step_input conf.final_step)
          (initState (sp.sample_init (seededG ctx conf i g)).1
            (sp.sample_init (seededG ctx conf i g)).2.1
            (sp.sample_init (seededG ctx conf i g)).2.2)).2 = .ok st1 ∧
      frx = flip0 st1.denoised_stack ∧ frp = flip0 st1.px0_stack ∧
      (∀ j, j < st1.denoised_stack.length →
        frx.getD j d
          = st1.denoised_stack.getD (st1.denoised_stack.length - 1 - j) d) ∧
      (∀ j, j < st1.px0_stack.length →
        frp.getD j d
          = st1.px0_stack.getD (st1.px0_stack.length - 1 - j) d) := by
  obtain ⟨s1, hok1, hfr1⟩ :=
    runDesign_writeTrajXt_mem ctx sp conf i g fs o1 frx bf1 sq1 hx
  obtain ⟨s2, hok2, hfr2⟩ :=
    runDesign_writeTrajPx0_mem ctx sp conf i g fs o2 frp bf2 sq2 hp
  rw [hok1] at hok2
  injection hok2 with hok2
  subst hok2
  refine ⟨s1, hok1, hfr1, hfr2, ?_, ?_⟩
  · intro j hj
    rw [hfr1]
    exact getD_flip0 _ d j hj
  · intro j hj
    rw [hfr2]
    exact getD_flip0 _ d j hj

/-- C3 witness: the two trajectory artifacts of the concrete run hold the
reversed stacks `[6, 4, 2]` and `[5, 3, 1]`. -/
theorem trajectory_stacks_reversed_witness :
    ∃ st1,
      (runLoop (toySampler 2 99) toyConf.final_step
          (rangeDown (toySampler 2 99).t_step_input toyConf.final_step)
          (initState ((toySampler 2 99).sample_init
              (seededG toyCtx toyConf 0 0)).1
            ((toySampler 2 99).sample_init (seededG toyCtx toyConf 0 0)).2.1
            ((toySampler 2 99).sample_init
              (seededG toyCtx toyConf 0 0)).2.2)).2 = .ok st1 ∧
      [6, 4, 2] = flip0 st1.denoised_stack ∧
      [5, 3, 1] = flip0 st1.px0_stack ∧
      (∀ j, j < st1.denoised_stack.length →
        [6, 4, 2].getD j 0
          = st1.denoised_stack.getD (st1.denoised_stack.length - 1 - j) 0) ∧
      (∀ j, j < st1.px0_stack.length →
        [5, 3, 1].getD j 0
          = st1.px0_stack.getD (st1.px0_stack.length - 1 - j) 0) :=
  trajectory_stacks_reversed toyCtx (toySampler 2 99) toyConf 0 0 []
    "out/traj/d_00000_Xt-1_traj.pdb" "out/traj/d_00000_pX0_traj.pdb"
    [6, 4, 2] [5, 3, 1] [0, 1] [0, 1] [7, 2] [7, 2] 0
    (by decide) (by decide)

/-- C8: the confidence stack written to the metadata artifact is the loop's
accumulator itself — generation order, never reversed — with one entry per
loop iteration, and each iteration appends exactly the head slice of the raw
confidence tensor (its singleton leading dimension removed). -/
theorem plddt_stack_chronological {X C G E : Type} (ctx : Ctx X G)
    (sp : Sampler X C G E) (conf : InfConf) (i : Int) (g : G)
    (fs : List String) (path : String) (pl : List C)
    (hmem : Event.writeTrb path pl ∈ (runDesign ctx sp conf i g fs).1) :
    (∃ st1,
      (runLoop sp conf.final_step (rangeDown sp.t_step_input conf.final_step)
          (initState (sp.sample_init (seededG ctx conf i g)).1
            (sp.sample_init (seededG ctx conf i g)).2.1
            (sp.sample_init (seededG ctx conf i g)).2.2)).2 = .ok st1 ∧
      pl = st1.plddt_stack ∧
      pl.length = (rangeDown sp.t_step_input conf.final_step).length) ∧
    ∀ (st : LoopState X C G) (t : Int) (px0 x : X) (s : Seq) (p0 : C)
      (ps : List C) (g2 : G),
      sp.sample_step t st.x_t st.seq_t conf.final_step st.g
          = .ok (px0, x, s, p0 :: ps, g2) →
      ∃ st2, loopStep sp conf.final_step st t = .ok st2 ∧
        st2.plddt_stack = st.plddt_stack ++ [p0] := by
  constructor
  · obtain ⟨st1, hok, hpath, hpl⟩ :=
      runDesign_writeTrb_mem ctx sp conf i g fs path pl hmem
    obtain ⟨-, -, -, hlen⟩ := runLoop_ok_stacks _ _ _ _ _ hok
    refine ⟨st1, hok, hpl, ?_⟩
    rw [hpl, hlen]
    simp [initState]
  · intro st t px0 x s p0 ps g2 hs
    exact loopStep_plddt_entry sp conf.final_step t st px0 x s p0 ps g2 hs

/-- C8 witness: the metadata write of the concrete run holds `[100, 101,
102]`, one entry per timestep, in generation order. -/
theorem plddt_stack_chronological_witness :
    (∃ st1,
      (runLoop (toySampler 2 99) toyConf.final_step
          (rangeDown (toySampler 2 99).t_step_input toyConf.final_step)
          (initState ((toySampler 2 99).sample_init
              (seededG toyCtx toyConf 0 0)).1
            ((toySampler 2 99).sample_init (seededG toyCtx toyConf 0 0)).2.1
            ((toySampler 2 99).sample_init
              (seededG toyCtx toyConf 0 0)).2.2)).2 = .ok st1 ∧
      [100, 101, 102] = st1.plddt_stack ∧
      [(100 : Nat), 101, 102].length
        = (rangeDown (toySampler 2 99).t_step_input toyConf.final_step).length) ∧
    ∀ (st : LoopState Nat Nat Nat) (t : Int) (px0 x : Nat) (s : Seq)
      (p0 : Nat) (ps : List Nat) (g2 : Nat),
      (toySampler 2 99).sample_step t st.x_t st.seq_t toyConf.final_step st.g
          = .ok (px0, x, s, p0 :: ps, g2) →
      ∃ st2, loopStep (toySampler 2 99) toyConf.final_step st t = .ok st2 ∧
        st2.plddt_stack = st.plddt_stack ++ [p0] :=
  plddt_stack_chronological toyCtx (toySampler 2 99) toyConf 0 0 []
    "out/d_00000.trb" [100, 101, 102] (by decide)

/-- C4: with the `-1` start-index sentinel, the resume scan returns 0 when no
artifact matches, otherwise one more than the largest extracted trailing
suffix; filenames the suffix pattern rejects are skipped without effect. -/
theorem resume_scan_next_index (stem : String) (fs : List String) :
    (matchingIndices stem fs = [] → resolveStartnum (-1) stem fs = 0) ∧
    (∀ n ∈ matchingIndices stem fs, (n : Int) < resolveStartnum (-1) stem fs) ∧
    (matchingIndices stem fs ≠ [] →
      ∃ n ∈ matchingIndices stem fs,
        resolveStartnum (-1) stem fs = (n : Int) + 1) ∧
    (∀ p, extractIndex p = none →
      resolveStartnum (-1) stem (p :: fs) = resolveStartnum (-1) stem fs) := by
  have key : ∀ gs : List String,
      resolveStartnum (-1) stem gs
        = ((matchingIndices stem gs).map (fun (n : Nat) => (n : Int))).foldl max (-1)
            + 1 := by
    intro gs
    rw [resolveStartnum, if_pos rfl, scanIndices_eq]
    rfl
  refine ⟨?_, ?_, ?_, ?_⟩
  · intro hnil
    rw [key fs, hnil]
    rfl
  · intro n hn
    rw [key fs]
    have hle : (n : Int)
        ≤ ((matchingIndices stem fs).map (fun (n : Nat) => (n : Int))).foldl max (-1) :=
      mem_le_foldl_max _ _ _ (List.mem_map_of_mem _ hn)
    omega
  · intro hne
    rw [key fs]
    rcases foldl_max_mem
        ((matchingIndices stem fs).map (fun (n : Nat) => (n : Int))) (-1) with h | h
    · exfalso
      obtain ⟨m, hm⟩ := List.exists_mem_of_ne_nil _ hne
      have hle : (m : Int)
          ≤ ((matchingIndices stem fs).map (fun (n : Nat) => (n : Int))).foldl max (-1) :=
        mem_le_foldl_max _ _ _ (List.mem_map_of_mem _ hm)
      rw [h] at hle
      omega
    · obtain ⟨n, hn, hmap⟩ := List.mem_map.1 h
      exact ⟨n, hn, by rw [← hmap]⟩
  · intro p hp
    have hmi : matchingIndices stem (p :: fs) = matchingIndices stem fs := by
      rw [matchingIndices, matchingIndices, List.filter_cons]
      cases hg : globPdb stem p
      · simp
      · simp [List.filterMap_cons, hp]
    rw [key, key, hmi]

/-- C5: with determinism enabled, a design's whole observable run is the same
whatever generator state it inherits, because the generators are re-seeded
with `seed + design index` right before the design starts. -/
theorem per_design_reseed_reproducible {X C G E : Type} (ctx : Ctx X G)
    (sp : Sampler X C G E) (conf : InfConf) (i : Int) (g g2 : G)
    (fs : List String) (hdet : conf.deterministic = true) :
    runDesign ctx sp conf i g fs = runDesign ctx sp conf i g2 fs ∧
    seededG ctx conf i g = ctx.seedGen (conf.seed + i) := by
  have hseed : ∀ g3 : G, seededG ctx conf i g3 = ctx.seedGen (conf.seed + i) := by
    intro g3
    simp [seededG, hdet]
  constructor
  · rw [runDesign, runDesign, hseed g, hseed g2]
  · exact hseed g

/-- C5 witness: two runs of design 0 from different inherited states. -/
theorem per_design_reseed_reproducible_witness :
    runDesign toyCtx (toySampler 2 99) toyConfDet 0 3 []
      = runDesign toyCtx (toySampler 2 99) toyConfDet 0 17 [] ∧
    seededG toyCtx toyConfDet 0 3 = toyCtx.seedGen (toyConfDet.seed + 0) :=
  per_design_reseed_reproducible toyCtx (toySampler 2 99) toyConfDet 0 3 17 []
    rfl

/-- C6: a `sample_step` exception makes the whole batch abort at that design:
the failing design writes nothing (its trace holds no write event and the
file set is untouched), later designs never run, and the artifacts of the
designs completed before it are preserved unchanged. -/
theorem sampler_failure_aborts_batch {X C G E : Type} (ctx : Ctx X G)
    (sp : Sampler X C G E) (conf : InfConf) (is rest : List Int) (i : Int)
    (g g1 : G) (fs fs1 : List String) (ev : List (Event X C)) (e : E)
    (h1 : runDesigns ctx sp conf is g fs = (ev, fs1, .ok g1))
    (h2 : (runDesign ctx sp conf i g1 fs1).2.2
      = .error (.samplerError e)) :
    runDesigns ctx sp conf (is ++ i :: rest) g fs
      = (ev ++ (runDesign ctx sp conf i g1 fs1).1, fs1,
         .error (.samplerError e)) ∧
    ∀ w ∈ (runDesign ctx sp conf i g1 fs1).1, Event.isWrite w = false := by
  have heq : runDesign ctx sp conf i g1 fs1
      = ((runDesign ctx sp conf i g1 fs1).1,
         (runDesign ctx sp conf i g1 fs1).2.1,
         Except.error (RunError.samplerError e)) := by
    rw [← h2]
  have hframe := runDesign_error_frame ctx sp conf i g1 fs1
    (runDesign ctx sp conf i g1 fs1).2.1
    (runDesign ctx sp conf i g1 fs1).1 (RunError.samplerError e) heq
  constructor
  · rw [runDesigns_append ctx sp conf is (i :: rest) g g1 fs fs1 ev h1]
    simp only [runDesigns, h2]
    rw [hframe.1]
  · exact hframe.2

/-- C6 witness: design 0 completes and writes, design 1 raises, design 2
never runs; the batch result is the propagated error. -/
theorem sampler_failure_aborts_batch_witness :
    runDesigns toyCtx (toySampler 1 1) toyConfOneStep ([0] ++ 1 :: [2]) 0 []
      = ([Event.sampleInitCall, .sampleStepCall 1,
          .writePdb "out/d_00000.pdb" 2 [7, 2] [0, 1],
          .writeTrb "out/d_00000.trb" [100]]
          ++ (runDesign toyCtx (toySampler 1 1) toyConfOneStep 1 1
              ["out/d_00000.pdb", "out/d_00000.trb"]).1,
         ["out/d_00000.pdb", "out/d_00000.trb"],
         .error (.samplerError ())) ∧
    ∀ w ∈ (runDesign toyCtx (toySampler 1 1) toyConfOneStep 1 1
        ["out/d_00000.pdb", "out/d_00000.trb"]).1,
      Event.isWrite w = false :=
  sampler_failure_aborts_batch toyCtx (toySampler 1 1) toyConfOneStep
    [0] [2] 1 0 1 [] ["out/d_00000.pdb", "out/d_00000.trb"]
    [Event.sampleInitCall, .sampleStepCall 1,
     .writePdb "out/d_00000.pdb" 2 [7, 2] [0, 1],
     .writeTrb "out/d_00000.trb" [100]] ()
    rfl rfl

/-- C9: when the cautious flag is set and the design's primary artifact
already exists, the design is skipped outright — no sampler call, no write,
no file change — and the batch continues with the next index. -/
theorem cautious_skip_no_effects {X C G E : Type} (ctx : Ctx X G)
    (sp : Sampler X C G E) (conf : InfConf) (i : Int) (is : List Int)
    (g : G) (fs : List String) (hc : conf.cautious = true)
    (hex : fs.contains (outStem conf i ++ ".pdb") = true) :
    runDesign ctx sp conf i g fs = ([], fs, .ok (seededG ctx conf i g)) ∧
    runDesigns ctx sp conf (i :: is) g fs
      = runDesigns ctx sp conf is (seededG ctx conf i g) fs := by
  have h1 : runDesign ctx sp conf i g fs
      = ([], fs, .ok (seededG ctx conf i g)) := by
    simp only [runDesign]
    rw [hc, hex]
    rfl
  refine ⟨h1, ?_⟩
  simp only [runDesigns, h1, List.nil_append]

/-- C9 witness: design 0 is skipped over an existing artifact and the batch
proceeds to design 1. -/
theorem cautious_skip_no_effects_witness :
    runDesign toyCtx (toySampler 2 99) toyConfCautious 0 7 ["out/d_00000.pdb"]
      = ([], ["out/d_00000.pdb"],
         .ok (seededG toyCtx toyConfCautious 0 7)) ∧
    runDesigns toyCtx (toySampler 2 99) toyConfCautious (0 :: [1]) 7
        ["out/d_00000.pdb"]
      = runDesigns toyCtx (toySampler 2 99) toyConfCautious [1]
          (seededG toyCtx toyConfCautious 0 7) ["out/d_00000.pdb"] :=
  cautious_skip_no_effects toyCtx (toySampler 2 99) toyConfCautious 0 [1] 7
    ["out/d_00000.pdb"] rfl (by decide)

/-- C10 counterexample: the loop does not always run at least once — with
`t_initial = 0` and `final_step = 2` its timestep schedule is empty, and the
design then aborts on the empty accumulators instead of reaching a step. -/
theorem loop_empty_schedule_cx :
    ¬ 1 ≤ (rangeDown 0 2).length ∧
    (runDesign toyCtx (toySampler 0 99) toyConfEmpty 0 0 []).2.2
      = Except.error RunError.emptyStackError :=
  ⟨by decide, rfl⟩

/-- C10 amended: whenever `final_step ≤ t_initial` — the configuration
invariant the spec states — the loop executes at least one step, and a
completed run's accumulators are all nonempty, so stacking them and indexing
the last sequence entry are safe. -/
theorem loop_runs_at_least_once {X C G E : Type} (sp : Sampler X C G E)
    (f a b : Int) (x : X) (s : Seq) (g : G) (st1 : LoopState X C G)
    (h : b ≤ a)
    (hok : (runLoop sp f (rangeDown a b) (initState x s g)).2 = .ok st1) :
    1 ≤ (rangeDown a b).length ∧
    st1.seq_stack ≠ [] ∧ st1.denoised_stack ≠ [] ∧
    st1.px0_stack ≠ [] ∧ st1.plddt_stack ≠ [] := by
  have hlen : 1 ≤ (rangeDown a b).length := by
    rw [length_rangeDown]
    omega
  obtain ⟨l1, l2, l3, l4⟩ := runLoop_ok_stacks _ _ _ _ _ hok
  simp only [initState, List.length_nil] at l1 l2 l3 l4
  exact ⟨hlen, List.length_pos.mp (by omega), List.length_pos.mp (by omega),
    List.length_pos.mp (by omega), List.length_pos.mp (by omega)⟩

/-- C10 amended witness: the three-step concrete run has nonempty stacks. -/
theorem loop_runs_at_least_once_witness :
    1 ≤ (rangeDown 2 0).length ∧
    ({ x_t := 6, seq_t := seqToy, px0_stack := [1, 3, 5],
       denoised_stack := [2, 4, 6], seq_stack := [seqToy, seqToy, seqToy],
       plddt_stack := [100, 101, 102], g := 3 }
      : LoopState Nat Nat Nat).seq_stack ≠ [] ∧
    ({ x_t := 6, seq_t := seqToy, px0_stack := [1, 3, 5],
       denoised_stack := [2, 4, 6], seq_stack := [seqToy, seqToy, seqToy],
       plddt_stack := [100, 101, 102], g := 3 }
      : LoopState Nat Nat Nat).denoised_stack ≠ [] ∧
    ({ x_t := 6, seq_t := seqToy, px0_stack := [1, 3, 5],
       denoised_stack := [2, 4, 6], seq_stack := [seqToy, seqToy, seqToy],
       plddt_stack := [100, 101, 102], g := 3 }
      : LoopState Nat Nat Nat).px0_stack ≠ [] ∧
    ({ x_t := 6, seq_t := seqToy, px0_stack := [1, 3, 5],
       denoised_stack := [2, 4, 6], seq_stack := [seqToy, seqToy, seqToy],
       plddt_stack := [100, 101, 102], g := 3 }
      : LoopState Nat Nat Nat).plddt_stack ≠ [] :=
  loop_runs_at_least_once (toySampler 2 99) 0 2 0 0 seqToy 0
    { x_t := 6, seq_t := seqToy, px0_stack := [1, 3, 5],
      denoised_stack := [2, 4, 6], seq_stack := [seqToy, seqToy, seqToy],
      plddt_stack := [100, 101, 102], g := 3 }
    (by decide) rfl

end RunInference
